import Mathlib

/-!
Shallow embedding of the pyblish plug-in engine (`pyblish/plugin.py`):
the entity model (`AbstractEntity`/`Context`/`Instance`), the dependency
injector (`Provider`), the execution engine (`process`/`_process`), the
registry operations, the validity/compatibility checks and discovery.

Machine-level effects that the claims do not touch (wall-clock timing,
log-handler attachment, module importing from disk) are omitted or made
explicit parameters; everything else follows the Python source line by
line.  Python exceptions are modelled with `Except`; Python dicts are
modelled as association lists with first-key update semantics.
-/

deriving instance DecidableEq for Except

namespace Pyblish

/-- A captured Python exception.  Only the message matters to the claims;
the traceback attached by `pyblish.lib.extract_traceback` is an
environment effect. -/
structure PyError where
  msg : String
deriving DecidableEq, Repr

/-- Plain Python values as stored in entity data stores, plug-in
attributes and service tables. -/
inductive PyVal where
  | pynone : PyVal
  | int : Int → PyVal
  | str : String → PyVal
deriving DecidableEq, Repr

/-- `isinstance(v, basestring)` for the modelled values. -/
def isStr : PyVal → Bool
  | PyVal.str _ => true
  | _ => false

/-- Python dict assignment `d[k] = v`, on an association-list model:
replace the binding of `k` if present, otherwise append a new one. -/
def dictSet {α : Type} : List (String × α) → String → α → List (String × α)
  | [], k, v => [(k, v)]
  | kv :: rest, k, v =>
    if kv.1 == k then (k, v) :: rest else kv :: dictSet rest k v

/-- Python `d.pop(k)`'s effect on the dict: every binding of `k` is
removed (a well-formed dict has at most one). -/
def dictPop {α : Type} (d : List (String × α)) (k : String) : List (String × α) :=
  d.filter (fun kv => !(kv.1 == k))

/-- `Instance`: name (the identity), optional parent back-reference
(modelled as the parent context's id), the inherited list of members and
the data store (`AbstractEntity`). -/
structure Inst where
  name : String
  parent : Option Nat
  members : List PyVal
  idata : List (String × PyVal)
deriving DecidableEq, Repr

/-- An arbitrary Python object as seen by `Instance.__eq__`: all that is
consulted is `getattr(other, "name", None)`; `payload` stands for
whatever else the object carries. -/
structure PyObj where
  nameAttr : Option String
  payload : PyVal
deriving DecidableEq, Repr

/-- `Instance.__eq__`: `self.name == getattr(other, "name", None)`.
When the attribute is missing the comparison is a Python 2
string-to-None comparison, which is `False`. -/
def instanceEq (a : Inst) (o : PyObj) : Bool :=
  match o.nameAttr with
  | some n => a.name == n
  | none => false

/-- View an `Instance` as the object the equality method inspects. -/
def Inst.toPyObj (b : Inst) : PyObj :=
  { nameAttr := some b.name, payload := PyVal.pynone }

/-- Instance-to-instance equality, as used by list membership in
`AbstractEntity.add`. -/
def instEqInst (a b : Inst) : Bool :=
  instanceEq a (Inst.toPyObj b)

/-- The result dictionary built by `_process`/`_repair`.  `plugin` holds
the plug-in class (identified by name), `inst` the `instance` entry.
`records` (captured log output) and `duration` (wall-clock milliseconds)
are environment effects and are omitted. -/
structure Result where
  success : Bool
  plugin : String
  inst : Option Inst
  error : Option PyError
deriving DecidableEq, Repr

/-- Values in a `Context`'s data store: the engine-managed `"results"`
list, or any other Python value. -/
inductive DVal where
  | results : List Result → DVal
  | val : PyVal → DVal
deriving DecidableEq, Repr

/-- `Context`: the root `AbstractEntity`.  `id` identifies the object so
that instances can point back at their parent. -/
structure Ctx where
  id : Nat
  members : List Inst
  cdata : List (String × DVal)
deriving DecidableEq, Repr

/-- `AbstractEntity.set_data` on a context. -/
def Ctx.setData (c : Ctx) (k : String) (v : DVal) : Ctx :=
  { c with cdata := dictSet c.cdata k v }

/-- Python membership `other in self` over the context's member list:
each element is compared with `Instance.__eq__`, i.e. by name. -/
def ctxContains (c : Ctx) (i : Inst) : Bool :=
  c.members.any (fun m => instEqInst m i)

/-- `AbstractEntity.add`: append unless an equal member is present. -/
def Ctx.add (c : Ctx) (i : Inst) : Ctx :=
  if ctxContains c i then c else { c with members := c.members ++ [i] }

/-- `Context.create_instance(name)`: build an `Instance` with
`parent=self` — whose `__init__` runs `parent.add(self)` — and return
it.  The pair carries the returned instance and the updated context. -/
def create_instance (c : Ctx) (name : String) : Inst × Ctx :=
  let inst : Inst := { name := name, parent := some c.id, members := [], idata := [] }
  (inst, Ctx.add c inst)

/-- A value held in a service table: the injected context or instance
(`None` for context-level stages), or any other Python object. -/
inductive SVal where
  | ctxV : Ctx → SVal
  | instV : Inst → SVal
  | pynone : SVal
  | val : PyVal → SVal
deriving DecidableEq, Repr

/-- A Python callable as the `Provider` sees it: the declared parameter
names reported by `inspect.getargspec` and the behaviour of the call,
which receives the injected keyword dictionary and either returns a
value or raises. -/
structure Func where
  rawArgs : List String
  body : List (String × SVal) → Except PyError PyVal

/-- `Provider`: the process-wide registered-service table (the module
global `pyblish._registered_services`, passed explicitly here) plus the
locally injected bindings `_services`. -/
structure Provider where
  registered : List (String × SVal)
  locals : List (String × SVal)

/-- `Provider.services`: a copy of the registered table updated with the
local bindings; local bindings win on name collision. -/
def Provider.services (p : Provider) : List (String × SVal) :=
  p.locals.foldl (fun d kv => dictSet d kv.1 kv.2) p.registered

/-- `Provider.args(func)`: declared parameter names minus the implicit
receivers `self` and `cls`. -/
def Provider.args (f : Func) : List String :=
  f.rawArgs.filter (fun a => !(a == "self") && !(a == "cls"))

/-- `Provider.inject(name, obj)`. -/
def Provider.inject (p : Provider) (name : String) (obj : SVal) : Provider :=
  { p with locals := dictSet p.locals name obj }

/-- The error raised by `Provider.invoke` when an argument has no
matching service. -/
def unavailableService : PyError :=
  { msg := "KeyError: Unavailable service requested." }

/-- `Provider.invoke(func)`: raise a `KeyError` unless every declared
argument names an available service; otherwise call `func` with exactly
the sub-dictionary of services named by its arguments, returning its
result (or letting its own exception through) unmodified. -/
def Provider.invoke (p : Provider) (f : Func) : Except PyError PyVal :=
  let services := Provider.services p
  if !(Provider.args f).all (fun a => services.any (fun kv => kv.1 == a)) then
    Except.error unavailableService
  else
    f.body (services.filter (fun kv => (Provider.args f).contains kv.1))

/-- A plug-in class as the execution engine sees it: the class name, the
presence of the legacy 1.0 method names that `process` sniffs with
`hasattr`, the behaviour of the no-argument constructor `plugin()`, and
the `process` method of the constructed object. -/
structure ExecPlugin where
  name : String
  hasProcessInstance : Bool
  hasProcessContext : Bool
  init : Except PyError Unit
  processFunc : Func

/-- Lines 263-264 of `_process`: create the `"results"` entry on first
use. -/
def ensureResults (c : Ctx) : Ctx :=
  if (c.cdata.lookup "results").isNone then
    Ctx.setData c "results" (DVal.results [])
  else c

/-- The context's `"results"` list (empty when absent or not the
engine-managed list). -/
def resultsList (c : Ctx) : List Result :=
  match c.cdata.lookup "results" with
  | some (DVal.results l) => l
  | _ => []

/-- The `"results"` entry is absent or is the engine-managed list —
the well-formedness every engine-touched context enjoys. -/
def resultsWF (c : Ctx) : Bool :=
  match c.cdata.lookup "results" with
  | none => true
  | some (DVal.results _) => true
  | some (DVal.val _) => false

/-- `context.data("results").append(result)`: raises (AttributeError)
when the entry is not the engine's list. -/
def appendResult (c : Ctx) (r : Result) : Except PyError Ctx :=
  match c.cdata.lookup "results" with
  | some (DVal.results l) => Except.ok (Ctx.setData c "results" (DVal.results (l ++ [r])))
  | _ => Except.error { msg := "AttributeError: append" }

/-- The provider `_process` builds: a fresh `Provider()` over the
registered services, with `context` and `instance` injected. -/
def processProvider (services : List (String × SVal)) (context : Ctx)
    (inst : Option Inst) : Provider :=
  Provider.inject
    (Provider.inject { registered := services, locals := [] } "context" (SVal.ctxV context))
    "instance" (match inst with | some i => SVal.instV i | none => SVal.pynone)

/-- `_process(plugin, context, instance)`: ensure the `"results"` entry,
build the result record with `success=False`, instantiate the plug-in
(an exception here propagates), invoke its `process` through a provider
holding `context` and `instance`, capture any failure into the record,
append the record to the context's results and return it.  The returned
pair is (what the call returns or raises, the final context state). -/
def _process (services : List (String × SVal)) (plugin : ExecPlugin) (context : Ctx)
    (inst : Option Inst) : Except PyError Result × Ctx :=
  let context := ensureResults context
  let result : Result :=
    { success := false, plugin := plugin.name, inst := inst, error := none }
  match plugin.init with
  | Except.error e => (Except.error e, context)
  | Except.ok _ =>
    let provider := processProvider services context inst
    let result :=
      match Provider.invoke provider plugin.processFunc with
      | Except.ok _ => { result with success := true }
      | Except.error e => { result with error := some e }
    match appendResult context result with
    | Except.error e => (Except.error e, context)
    | Except.ok c2 => (Except.ok result, c2)

/-- `process(plugin, context, instance)`: plug-ins exposing a legacy 1.0
method name are handed to `pyblish.legacy.process_1_0` (outside the
core, passed as the `legacy` collaborator); everything else goes through
`_process`. -/
def process (legacy : ExecPlugin → Ctx → Option Inst → Except PyError Result × Ctx)
    (services : List (String × SVal)) (plugin : ExecPlugin) (context : Ctx)
    (inst : Option Inst) : Except PyError Result × Ctx :=
  if plugin.hasProcessInstance || plugin.hasProcessContext then
    legacy plugin context inst
  else
    _process services plugin context inst

/-- A plug-in class as discovery and the checks see it: the class name,
the outcomes of `inspect.isclass` and `issubclass(-, Plugin)`, the
outcome of `issubclass` against each of the four stage roles, and the
class attributes `hosts`, `families`, `requires` and `order`.
`versionCompatible` models the verdict of
`iscompatible.iscompatible(plugin.requires, pyblish.version_info)`:
the vendored `iscompatible` module and `pyblish.version_info` are not
under src, so the verdict is carried as data (see
`version_is_compatible`). -/
structure PluginC where
  name : String
  isClass : Bool
  isPluginSubclass : Bool
  isSelector : Bool
  isValidator : Bool
  isExtractor : Bool
  isConformer : Bool
  hosts : List String
  families : List String
  requires : PyVal
  versionCompatible : Bool
  order : Option Int
deriving DecidableEq, Repr

/-- `plugin_is_valid(plugin)`: a class, a `Plugin` subclass, a textual
`requires`, and the role checks of the `try` block — a Selector with
falsy `hosts`, a Validator/Extractor with falsy `families` AND falsy
`hosts`, or a Conformer with falsy `families` raises, and any raise
yields `False`. -/
def plugin_is_valid (p : PluginC) : Bool :=
  if !p.isClass then false
  else if !p.isPluginSubclass then false
  else if !isStr p.requires then false
  else if p.isSelector && p.hosts.isEmpty then false
  else if (p.isValidator || p.isExtractor) && p.families.isEmpty && p.hosts.isEmpty then false
  else if p.isConformer && p.families.isEmpty then false
  else true

/-- `version_is_compatible(plugin)`.  Modelled from the spec: it
"evaluates P.requires as a version-range expression against the running
engine's version"; the evaluator (the vendored `iscompatible` module)
is not under src, so the plug-in carries the evaluation's verdict. -/
def version_is_compatible (p : PluginC) : Bool :=
  p.versionCompatible

/-- Python substring containment `needle in hay` over character
lists. -/
def containsSub (needle : List Char) : List Char → Bool
  | [] => needle.isEmpty
  | c :: rest => needle.isPrefixOf (c :: rest) || containsSub needle rest

/-- Python `needle in hay` on strings. -/
def strIn (needle hay : String) : Bool :=
  containsSub needle.data hay.data

/-- Python `s.lower()`. -/
def strLower (s : String) : String :=
  ⟨s.data.map Char.toLower⟩

/-- `current_host()`: lower-case the running executable's basename
(taken here as input) and probe it for the known host substrings in
source order; raise `ValueError` when none matches. -/
def current_host (executable : String) : Except PyError String :=
  let e := strLower executable
  if strIn "python" e then Except.ok "python"
  else if strIn "maya" e then Except.ok "maya"
  else if strIn "nuke" e then Except.ok "nuke"
  else if strIn "modo" e then Except.ok "modo"
  else if strIn "houdini" e then Except.ok "houdini"
  else Except.error { msg := "ValueError: Could not determine host from \"" ++ e ++ "\"" }

/-- `host_is_compatible(plugin)`:
`any(["*" in plugin.hosts, current_host() in plugin.hosts])`.  The list
literal evaluates both elements before `any` runs, so a `ValueError`
from `current_host` propagates even when `"*"` is in `hosts`. -/
def host_is_compatible (executable : String) (p : PluginC) : Except PyError Bool :=
  let wildcard := p.hosts.contains "*"
  match current_host executable with
  | Except.error e => Except.error e
  | Except.ok h => Except.ok (wildcard || p.hosts.contains h)

/-- `register_plugin(plugin)`:
`pyblish._registered_plugins[plugin.__name__] = plugin` (classes are
always callable, so the `TypeError` guard never fires for class
inputs).  The registry dict is passed explicitly. -/
def register_plugin (reg : List (String × PluginC)) (p : PluginC) :
    List (String × PluginC) :=
  dictSet reg p.name p

/-- `deregister_plugin(plugin)`:
`pyblish._registered_plugins.pop(plugin.__name__)` (the claims only
exercise the key-present case). -/
def deregister_plugin (reg : List (String × PluginC)) (p : PluginC) :
    List (String × PluginC) :=
  dictPop reg p.name

/-- `register_plugin_path(path)`: warn and return `None` when the path
is already registered (no append), otherwise append and return the
path. -/
def register_plugin_path (paths : List String) (path : String) :
    List String × Option String :=
  if paths.contains path then (paths, none)
  else (paths ++ [path], some path)

/-- Python 2 comparison `a <= b` on `order` keys, where an unset order
is `None` and `None` compares below every number. -/
def orderLe : Option Int → Option Int → Bool
  | none, _ => true
  | some _, none => false
  | some a, some b => decide (a ≤ b)

/-- The sort relation `sort` uses: compare plug-ins by their `order`
key. -/
def pluginLe (p q : PluginC) : Prop :=
  orderLe p.order q.order = true

instance : DecidableRel pluginLe := fun p q => by
  unfold pluginLe
  infer_instance

instance : IsTotal PluginC pluginLe :=
  ⟨fun p q => by
    unfold pluginLe
    cases p.order <;> cases q.order <;> simp [orderLe] <;> omega⟩

instance : IsTrans PluginC pluginLe := by
  constructor
  intro p q r hpq hqr
  unfold pluginLe at *
  cases hp : p.order with
  | none => simp [orderLe]
  | some a =>
    rw [hp] at hpq
    cases hq : q.order with
    | none =>
      rw [hq] at hpq
      simp [orderLe] at hpq
    | some b =>
      rw [hq] at hpq
      rw [hq] at hqr
      cases hr : r.order with
      | none =>
        rw [hr] at hqr
        simp [orderLe] at hqr
      | some c =>
        rw [hr] at hqr
        simp [orderLe] at hpq hqr ⊢
        omega

instance : IsRefl PluginC pluginLe :=
  ⟨fun p => by
    unfold pluginLe
    cases p.order <;> simp [orderLe]⟩

/-- `sort(plugins)`: `plugins.sort(key=lambda p: p.order)`.  Python's
`list.sort` is specified as a stable comparison sort; the canonical
pure model of a stable sort by key is insertion sort under the key
order. -/
def sort (plugins : List PluginC) : List PluginC :=
  List.insertionSort pluginLe plugins

/-- `any(issubclass(plugin, types[type]) for type in types_to_check)`
with `type=None`: `types_to_check` covers all six type keys, whose
classes are the four stage roles. -/
def roleAny (p : PluginC) : Bool :=
  p.isSelector || p.isValidator || p.isExtractor || p.isConformer

/-- `regex is None or re.match(regex, name)`: the optional name filter,
abstracted as a predicate on the class name. -/
def regexMatches (regex : Option (String → Bool)) (name : String) : Bool :=
  match regex with
  | none => true
  | some r => r name

/-- The filtering loop of `discover` (lines 872-894), at `type=None`:
drop invalid, version-incompatible and host-incompatible classes (a
`ValueError` escaping `host_is_compatible` aborts discovery), drop
identity duplicates, drop classes of no stage role, drop names failing
the regex; append survivors. -/
def discoverFilter (executable : String) (regex : Option (String → Bool)) :
    List (String × PluginC) → List PluginC → Except PyError (List PluginC)
  | [], plugins => Except.ok plugins
  | (name, plugin) :: rest, plugins =>
    if !plugin_is_valid plugin then discoverFilter executable regex rest plugins
    else if !version_is_compatible plugin then discoverFilter executable regex rest plugins
    else
      match host_is_compatible executable plugin with
      | Except.error e => Except.error e
      | Except.ok hc =>
        if !hc then discoverFilter executable regex rest plugins
        else if plugins.contains plugin then discoverFilter executable regex rest plugins
        else if !roleAny plugin then discoverFilter executable regex rest plugins
        else if regexMatches regex name then
          discoverFilter executable regex rest (plugins ++ [plugin])
        else discoverFilter executable regex rest plugins

/-- `discover(type=None, regex, paths)`: seed the candidate dict with
the registered plug-ins, overwrite with each class the path scan
yields (`fileDiscovered` stands for the `(class-name, class)` pairs the
directory walk and module import produce, in encounter order — the
filesystem itself is an environment effect), filter, sort and
return. -/
def discover (executable : String) (reg fileDiscovered : List (String × PluginC))
    (regex : Option (String → Bool)) : Except PyError (List PluginC) :=
  let candidates := fileDiscovered.foldl (fun d kv => dictSet d kv.1 kv.2) reg
  match discoverFilter executable regex candidates [] with
  | Except.error e => Except.error e
  | Except.ok plugins => Except.ok (sort plugins)

/-! Concrete fixtures used to evaluate the development on closed
inputs. -/

/-- An empty publishing context. -/
def ctx0 : Ctx := { id := 0, members := [], cdata := [] }

/-- A context already holding an instance named "A". -/
def ctxA : Ctx :=
  { id := 3
    members := [{ name := "A", parent := some 3, members := [], idata := [] }]
    cdata := [] }

/-- A stand-in for the legacy collaborator `pyblish.legacy`. -/
def legacyStub : ExecPlugin → Ctx → Option Inst → Except PyError Result × Ctx :=
  fun _ c _ => (Except.error { msg := "legacy path" }, c)

/-- A `process` method that raises `RuntimeError("boom")`. -/
def boomFunc : Func :=
  { rawArgs := ["self"]
    body := fun _ => Except.error { msg := "RuntimeError: boom" } }

/-- A plug-in whose `process` raises. -/
def boomPlugin : ExecPlugin :=
  { name := "Boom"
    hasProcessInstance := false
    hasProcessContext := false
    init := Except.ok ()
    processFunc := boomFunc }

/-- A plug-in whose no-argument constructor raises. -/
def brokenInitPlugin : ExecPlugin :=
  { name := "BrokenInit"
    hasProcessInstance := false
    hasProcessContext := false
    init := Except.error { msg := "RuntimeError: broken constructor" }
    processFunc := { rawArgs := ["self"], body := fun _ => Except.ok PyVal.pynone } }

/-- A provider over one registered service named "user". -/
def provider0 : Provider :=
  { registered := [("user", SVal.val (PyVal.str "marcus"))], locals := [] }

/-- A callable requesting an unregistered service name. -/
def missingFunc : Func :=
  { rawArgs := ["self", "missing"]
    body := fun _ => Except.ok PyVal.pynone }

/-- A callable requesting the registered "user" service. -/
def userFunc : Func :=
  { rawArgs := ["self", "user"]
    body := fun d =>
      match d.lookup "user" with
      | some (SVal.val v) => Except.ok v
      | _ => Except.error { msg := "unexpected injection" } }

/-- A Validator-role class with empty `hosts` but nonempty
`families`. -/
def badValidator : PluginC :=
  { name := "BadValidator"
    isClass := true
    isPluginSubclass := true
    isSelector := false
    isValidator := true
    isExtractor := false
    isConformer := false
    hosts := []
    families := ["*"]
    requires := PyVal.str "pyblish>=1"
    versionCompatible := true
    order := some 1 }

/-- A wildcard-host Selector-role class. -/
def collectPlugin : PluginC :=
  { name := "Collect"
    isClass := true
    isPluginSubclass := true
    isSelector := true
    isValidator := false
    isExtractor := false
    isConformer := false
    hosts := ["*"]
    families := ["*"]
    requires := PyVal.str "pyblish>=1"
    versionCompatible := true
    order := some 0 }

/-- A direct `Plugin` subclass of none of the four stage roles, valid
and compatible on every check. -/
def plainPlugin : PluginC :=
  { name := "Plain"
    isClass := true
    isPluginSubclass := true
    isSelector := false
    isValidator := false
    isExtractor := false
    isConformer := false
    hosts := ["*"]
    families := ["*"]
    requires := PyVal.str "pyblish>=1"
    versionCompatible := true
    order := none }

/-! Theorems. -/

/-- C2 (counterexample): a Validator-role class with a string `requires`,
empty `hosts` and nonempty `families` is accepted by `plugin_is_valid`,
although the claim demands rejection whenever `hosts` is empty. -/
theorem plugin_is_valid_accepts_empty_hosts_validator :
    badValidator.isValidator = true ∧ badValidator.hosts = [] ∧
    isStr badValidator.requires = true ∧
    plugin_is_valid badValidator = true := by
  decide

/-- C2 (amended): for a Validator- or Extractor-role class (of no other
role) with a string `requires`, `plugin_is_valid` returns false exactly
when `families` and `hosts` are BOTH empty; a single empty field is
accepted. -/
theorem plugin_is_valid_validator_extractor_rule (p : PluginC)
    (hc : p.isClass = true) (hps : p.isPluginSubclass = true)
    (hreq : isStr p.requires = true)
    (hve : p.isValidator = true ∨ p.isExtractor = true)
    (hsel : p.isSelector = false) (hcon : p.isConformer = false) :
    plugin_is_valid p = !(p.families.isEmpty && p.hosts.isEmpty) := by
  unfold plugin_is_valid
  rcases hve with h | h <;>
    by_cases hf : p.families.isEmpty <;>
      by_cases hh : p.hosts.isEmpty <;>
        simp [hc, hps, hreq, h, hsel, hcon, hf, hh]

/-- C2 (witness for the amended theorem). -/
theorem plugin_is_valid_validator_extractor_rule_witness :
    plugin_is_valid badValidator =
      !(badValidator.families.isEmpty && badValidator.hosts.isEmpty) :=
  plugin_is_valid_validator_extractor_rule badValidator (by decide) (by decide)
    (by decide) (Or.inl (by decide)) (by decide) (by decide)

/-- C3 (counterexample): with an unrecognised executable,
`host_is_compatible` raises the `ValueError` from `current_host` instead
of returning false — even for a wildcard-host plug-in. -/
theorem host_is_compatible_unknown_host_raises :
    ("*" ∈ collectPlugin.hosts ∧
      host_is_compatible "unknownapp" collectPlugin ≠ Except.ok false ∧
      host_is_compatible "unknownapp" collectPlugin ≠ Except.ok true) ∧
    host_is_compatible "unknownapp" collectPlugin =
      Except.error
        { msg := "ValueError: Could not determine host from \"unknownapp\"" } := by
  decide

/-- C3 (amended): when host detection succeeds, `host_is_compatible` is
true iff `"*"` or the detected host is in `hosts`; when detection fails,
the `ValueError` propagates out of the check. -/
theorem host_is_compatible_spec (executable : String) (p : PluginC) :
    (∀ h, current_host executable = Except.ok h →
      host_is_compatible executable p =
        Except.ok (p.hosts.contains "*" || p.hosts.contains h)) ∧
    (∀ e, current_host executable = Except.error e →
      host_is_compatible executable p = Except.error e) := by
  constructor
  · intro h hh
    simp [host_is_compatible, hh]
  · intro e he
    simp [host_is_compatible, he]

/-- C3 (witness): evaluated in a standalone-python process for a
wildcard-host plug-in. -/
theorem host_is_compatible_spec_witness :
    host_is_compatible "python" collectPlugin =
      Except.ok (collectPlugin.hosts.contains "*" ||
        collectPlugin.hosts.contains "python") :=
  (host_is_compatible_spec "python" collectPlugin).1 "python" (by decide)

/-- C4: `Provider.invoke` fails with the `KeyError` — for every callable
body, so the callable is never entered — whenever some declared argument
(the receivers excluded) names no available service; otherwise it is
exactly the callable's single application to the sub-dictionary of
available services named by its arguments, its result unmodified. -/
theorem invoke_spec (p : Provider) (f : Func) :
    (¬ (∀ a ∈ Provider.args f, a ∈ (Provider.services p).map Prod.fst) →
      Provider.invoke p f = Except.error unavailableService) ∧
    ((∀ a ∈ Provider.args f, a ∈ (Provider.services p).map Prod.fst) →
      Provider.invoke p f =
        f.body ((Provider.services p).filter
          (fun kv => (Provider.args f).contains kv.1))) := by
  have hiff :
      ((Provider.args f).all
        (fun a => (Provider.services p).any (fun kv => kv.1 == a)) = true)
      ↔ (∀ a ∈ Provider.args f, a ∈ (Provider.services p).map Prod.fst) := by
    simp [List.all_eq_true, List.any_eq_true, List.mem_map]
  constructor
  · intro h
    have hb : ((Provider.args f).all
        (fun a => (Provider.services p).any (fun kv => kv.1 == a))) = false :=
      Bool.eq_false_iff.mpr (fun hc => h (hiff.mp hc))
    simp [Provider.invoke, hb]
  · intro h
    have hb := hiff.mpr h
    simp [Provider.invoke, hb]

/-- C4 (witness): a callable asking for the unregistered "missing"
service fails with the `KeyError`; one asking for the registered "user"
service is called with exactly that service. -/
theorem invoke_spec_witness :
    Provider.invoke provider0 missingFunc = Except.error unavailableService ∧
    Provider.invoke provider0 userFunc =
      userFunc.body ((Provider.services provider0).filter
        (fun kv => (Provider.args userFunc).contains kv.1)) :=
  ⟨(invoke_spec provider0 missingFunc).1 (by decide),
   (invoke_spec provider0 userFunc).2 (by decide)⟩

/-- C7: registering a fresh search path twice leaves exactly one entry
for it, and the second call is a no-op (it returns without appending and
without raising). -/
theorem register_plugin_path_idempotent (paths : List String) (path : String)
    (h : path ∉ paths) :
    (register_plugin_path (register_plugin_path paths path).1 path).1 =
      (register_plugin_path paths path).1 ∧
    (register_plugin_path (register_plugin_path paths path).1 path).2 = none ∧
    ((register_plugin_path paths path).1).count path = 1 := by
  have key1 : register_plugin_path paths path = (paths ++ [path], some path) := by
    simp [register_plugin_path, h]
  have key2 : register_plugin_path (paths ++ [path]) path = (paths ++ [path], none) := by
    simp [register_plugin_path]
  rw [key1]
  refine ⟨?_, ?_, ?_⟩
  · rw [key2]
  · rw [key2]
  · rw [List.count_append, List.count_eq_zero_of_not_mem h]
    simp

/-- C7 (witness). -/
theorem register_plugin_path_idempotent_witness :
    (register_plugin_path (register_plugin_path [] "/server/plugins").1
        "/server/plugins").1 =
      (register_plugin_path [] "/server/plugins").1 ∧
    (register_plugin_path (register_plugin_path [] "/server/plugins").1
        "/server/plugins").2 = none ∧
    ((register_plugin_path [] "/server/plugins").1).count "/server/plugins" = 1 :=
  register_plugin_path_idempotent [] "/server/plugins" (by decide)

/-- C8: `Instance` equality is by name alone — two instances compare
equal exactly when their names are equal, whatever their members or
data; and against an object carrying no `name` attribute the comparison
is always false. -/
theorem instance_eq_by_name :
    (∀ a b : Inst, instanceEq a (Inst.toPyObj b) = (a.name == b.name)) ∧
    (∀ (a : Inst) (payload : PyVal),
      instanceEq a { nameAttr := none, payload := payload } = false) := by
  exact ⟨fun a b => rfl, fun a payload => rfl⟩

/-- C10: creating an instance under a name the context already holds
returns a fresh instance parented to the context while leaving the
member list unchanged — the name-based equality makes `add` a no-op. -/
theorem create_instance_duplicate_name (c : Ctx) (n : String)
    (h : ∃ m ∈ c.members, m.name = n) :
    (create_instance c n).2.members = c.members ∧
    (create_instance c n).1.parent = some c.id ∧
    (create_instance c n).1.name = n := by
  obtain ⟨m, hm, hname⟩ := h
  have hcontains :
      ctxContains c { name := n, parent := some c.id, members := [], idata := [] } = true := by
    unfold ctxContains
    rw [List.any_eq_true]
    exact ⟨m, hm, by simp [instEqInst, instanceEq, Inst.toPyObj, hname]⟩
  unfold create_instance Ctx.add
  simp [hcontains]

/-- C10 (witness): a context already holding an instance named "A". -/
theorem create_instance_duplicate_name_witness :
    (create_instance ctxA "A").2.members = ctxA.members ∧
    (create_instance ctxA "A").1.parent = some ctxA.id ∧
    (create_instance ctxA "A").1.name = "A" :=
  create_instance_duplicate_name ctxA "A" (by decide)

theorem orderLe_refl_thm (a : Option Int) : orderLe a a = true := by
  cases a <;> simp [orderLe]

theorem filter_orderedInsert_pos (x : PluginC) (o : Option Int)
    (hx : (x.order == o) = true) (l : List PluginC) :
    (List.orderedInsert pluginLe x l).filter (fun p => p.order == o)
      = x :: l.filter (fun p => p.order == o) := by
  induction l with
  | nil => simp [List.orderedInsert, hx]
  | cons y ys ih =>
    by_cases hles : pluginLe x y
    · simp [List.orderedInsert, hles, List.filter_cons, hx]
    · have hyo : (y.order == o) = false := by
        rcases Bool.eq_false_or_eq_true (y.order == o) with ht | hf
        · exfalso
          apply hles
          have h1 : x.order = o := by simpa using hx
          have h2 : y.order = o := by simpa using ht
          unfold pluginLe
          rw [h1, h2]
          exact orderLe_refl_thm o
        · exact hf
      simp [List.orderedInsert, hles, List.filter_cons, hyo, ih]

theorem filter_orderedInsert_neg (x : PluginC) (o : Option Int)
    (hx : (x.order == o) = false) (l : List PluginC) :
    (List.orderedInsert pluginLe x l).filter (fun p => p.order == o)
      = l.filter (fun p => p.order == o) := by
  induction l with
  | nil => simp [List.orderedInsert, hx]
  | cons y ys ih =>
    by_cases hles : pluginLe x y
    · simp [List.orderedInsert, hles, List.filter_cons, hx]
    · simp [List.orderedInsert, hles, List.filter_cons, ih]

/-- C5: `sort` yields a sequence non-decreasing in `order` under the
Python 2 key order, equal-`order` plug-ins keep their relative input
order (for every key value, filtering the output equals filtering the
input), and the key comparison is a total function on unset (`None`)
orders — in particular comparing two unset orders is defined. -/
theorem sort_spec :
    (∀ l : List PluginC, List.Sorted pluginLe (sort l)) ∧
    (∀ (l : List PluginC) (o : Option Int),
      (sort l).filter (fun p => p.order == o) = l.filter (fun p => p.order == o)) ∧
    (∀ a b : Option Int, orderLe a b = true ∨ orderLe b a = true) ∧
    orderLe none none = true := by
  refine ⟨fun l => List.sorted_insertionSort pluginLe l, ?_, ?_, rfl⟩
  · intro l o
    induction l with
    | nil => rfl
    | cons x xs ih =>
      have hstep : sort (x :: xs) = List.orderedInsert pluginLe x (sort xs) := rfl
      rw [hstep]
      by_cases hx : (x.order == o) = true
      · rw [filter_orderedInsert_pos x o hx, ih]
        simp [List.filter_cons, hx]
      · have hx2 : (x.order == o) = false := by
          rcases Bool.eq_false_or_eq_true (x.order == o) with ht | hf
          · exact absurd ht hx
          · exact hf
        rw [filter_orderedInsert_neg x o hx2, ih]
        simp [List.filter_cons, hx2]
  · intro a b
    cases a <;> cases b <;> simp [orderLe] <;> omega

theorem lookup_dictSet {α : Type} (d : List (String × α)) (k : String) (v : α) :
    (dictSet d k v).lookup k = some v := by
  induction d with
  | nil => simp [dictSet, List.lookup]
  | cons kv rest ih =>
    by_cases h : kv.1 = k
    · simp [dictSet, h, List.lookup]
    · have hb : (kv.1 == k) = false := beq_eq_false_iff_ne.mpr h
      have hb2 : (k == kv.1) = false := beq_eq_false_iff_ne.mpr (Ne.symm h)
      simp [dictSet, hb, List.lookup, hb2, ih]

theorem resultsList_ensure (c : Ctx) : resultsList (ensureResults c) = resultsList c := by
  unfold ensureResults resultsList Ctx.setData
  cases hl : c.cdata.lookup "results" with
  | none => simp [hl, lookup_dictSet]
  | some dv => simp [hl]

theorem ensure_lookup (c : Ctx) (hwf : resultsWF c = true) :
    (ensureResults c).cdata.lookup "results" = some (DVal.results (resultsList c)) := by
  unfold resultsWF at hwf
  unfold ensureResults resultsList Ctx.setData
  cases hl : c.cdata.lookup "results" with
  | none => simp [hl, lookup_dictSet]
  | some dv =>
    cases dv with
    | results l => simp [hl]
    | val v =>
      rw [hl] at hwf
      simp at hwf

/-- C9: a plug-in (without legacy method names) whose no-argument
constructor raises sees that exception propagate out of `process`: no
result record is returned or appended, the results list is unchanged —
though the empty `"results"` entry is still created on first use. -/
theorem process_propagates_init_failure
    (legacy : ExecPlugin → Ctx → Option Inst → Except PyError Result × Ctx)
    (services : List (String × SVal)) (p : ExecPlugin) (c : Ctx) (inst : Option Inst)
    (e : PyError)
    (hpi : p.hasProcessInstance = false) (hpc : p.hasProcessContext = false)
    (hinit : p.init = Except.error e) :
    process legacy services p c inst = (Except.error e, ensureResults c) ∧
    resultsList (ensureResults c) = resultsList c ∧
    (c.cdata.lookup "results" = none →
      (ensureResults c).cdata.lookup "results" = some (DVal.results [])) := by
  refine ⟨?_, resultsList_ensure c, ?_⟩
  · simp [process, hpi, hpc, _process, hinit]
  · intro h
    unfold ensureResults Ctx.setData
    simp [h, lookup_dictSet]

/-- C9 (witness): a plug-in whose constructor raises, over an empty
context. -/
theorem process_propagates_init_failure_witness :
    process legacyStub [] brokenInitPlugin ctx0 none =
      (Except.error { msg := "RuntimeError: broken constructor" }, ensureResults ctx0) ∧
    resultsList (ensureResults ctx0) = resultsList ctx0 ∧
    (ctx0.cdata.lookup "results" = none →
      (ensureResults ctx0).cdata.lookup "results" = some (DVal.results [])) :=
  process_propagates_init_failure legacyStub [] brokenInitPlugin ctx0 none
    { msg := "RuntimeError: broken constructor" } (by decide) (by decide) (by decide)

/-- C1: a plug-in (without legacy method names) whose `process` method
raises when invoked does not make `process` re-raise: the call returns a
result with `success=False` and the captured failure in `error`, and
appends exactly that one record to the context's `"results"` list,
creating the entry on first use. -/
theorem process_captures_process_failure
    (legacy : ExecPlugin → Ctx → Option Inst → Except PyError Result × Ctx)
    (services : List (String × SVal)) (p : ExecPlugin) (c : Ctx) (inst : Option Inst)
    (e : PyError)
    (hpi : p.hasProcessInstance = false) (hpc : p.hasProcessContext = false)
    (hinit : p.init = Except.ok ())
    (hwf : resultsWF c = true)
    (hrun : Provider.invoke (processProvider services (ensureResults c) inst)
      p.processFunc = Except.error e) :
    process legacy services p c inst =
      (Except.ok { success := false, plugin := p.name, inst := inst, error := some e },
       Ctx.setData (ensureResults c) "results"
         (DVal.results (resultsList c ++
           [{ success := false, plugin := p.name, inst := inst, error := some e }]))) ∧
    resultsList (process legacy services p c inst).2 =
      resultsList c ++
        [{ success := false, plugin := p.name, inst := inst, error := some e }] := by
  have happend := ensure_lookup c hwf
  have h1 : process legacy services p c inst =
      (Except.ok { success := false, plugin := p.name, inst := inst, error := some e },
       Ctx.setData (ensureResults c) "results"
         (DVal.results (resultsList c ++
           [{ success := false, plugin := p.name, inst := inst, error := some e }]))) := by
    simp [process, hpi, hpc, _process, hinit, hrun, appendResult, happend]
  refine ⟨h1, ?_⟩
  rw [h1]
  unfold resultsList Ctx.setData
  simp [lookup_dictSet]

/-- C1 (witness): a plug-in raising `RuntimeError("boom")`, over an
empty context. -/
theorem process_captures_process_failure_witness :
    process legacyStub [] boomPlugin ctx0 none =
      (Except.ok (Result.mk false boomPlugin.name none (some (PyError.mk "RuntimeError: boom"))),
       Ctx.setData (ensureResults ctx0) "results"
         (DVal.results (resultsList ctx0 ++
           [Result.mk false boomPlugin.name none (some (PyError.mk "RuntimeError: boom"))]))) ∧
    resultsList (process legacyStub [] boomPlugin ctx0 none).2 =
      resultsList ctx0 ++
        [Result.mk false boomPlugin.name none (some (PyError.mk "RuntimeError: boom"))] :=
  process_captures_process_failure legacyStub [] boomPlugin ctx0 none
    { msg := "RuntimeError: boom" } (by decide) (by decide) (by decide) (by decide)
    (by decide)

theorem mem_dictSet_self {α : Type} (d : List (String × α)) (k : String) (v : α) :
    (k, v) ∈ dictSet d k v := by
  induction d with
  | nil => simp [dictSet]
  | cons kv rest ih =>
    by_cases h : kv.1 = k
    · simp [dictSet, h]
    · have hb : (kv.1 == k) = false := beq_eq_false_iff_ne.mpr h
      simp [dictSet, hb, ih]

theorem mem_dictSet_of_ne {α : Type} (d : List (String × α)) (k' : String) (v' : α)
    (k : String) (v : α) (h : (k, v) ∈ d) (hne : k' ≠ k) :
    (k, v) ∈ dictSet d k' v' := by
  induction d with
  | nil => simp at h
  | cons kv rest ih =>
    rcases List.mem_cons.mp h with heq | hmem
    · have hkk : kv.1 = k := by rw [← heq]
      have hb : (kv.1 == k') = false := by
        apply beq_eq_false_iff_ne.mpr
        rw [hkk]
        exact fun hc => hne hc.symm
      simp only [dictSet, hb, Bool.false_eq_true, if_false]
      exact List.mem_cons.mpr (Or.inl heq)
    · by_cases hk : kv.1 = k'
      · have hb : (kv.1 == k') = true := beq_iff_eq.mpr hk
        simp only [dictSet, hb, if_true]
        exact List.mem_cons.mpr (Or.inr hmem)
      · have hb : (kv.1 == k') = false := beq_eq_false_iff_ne.mpr hk
        simp only [dictSet, hb, Bool.false_eq_true, if_false]
        exact List.mem_cons.mpr (Or.inr (ih hmem))

theorem mem_dictSet_cases {α : Type} (d : List (String × α)) (k : String) (v : α)
    (n : String) (x : α) (h : (n, x) ∈ dictSet d k v) :
    (n, x) ∈ d ∨ (n, x) = (k, v) := by
  induction d with
  | nil =>
    simp [dictSet] at h
    exact Or.inr (by simp [h])
  | cons kv rest ih =>
    by_cases hk : kv.1 = k
    · have hb : (kv.1 == k) = true := beq_iff_eq.mpr hk
      simp only [dictSet, hb, if_true] at h
      rcases List.mem_cons.mp h with heq | hmem
      · exact Or.inr heq
      · exact Or.inl (List.mem_cons.mpr (Or.inr hmem))
    · have hb : (kv.1 == k) = false := beq_eq_false_iff_ne.mpr hk
      simp only [dictSet, hb, Bool.false_eq_true, if_false] at h
      rcases List.mem_cons.mp h with heq | hmem
      · exact Or.inl (List.mem_cons.mpr (Or.inl heq))
      · rcases ih hmem with h1 | h2
        · exact Or.inl (List.mem_cons.mpr (Or.inr h1))
        · exact Or.inr h2

theorem mem_foldl_dictSet {α : Type} (fd : List (String × α)) :
    ∀ (d : List (String × α)) (k : String) (v : α), (k, v) ∈ d →
      (∀ kv ∈ fd, kv.1 ≠ k) →
      (k, v) ∈ fd.foldl (fun d kv => dictSet d kv.1 kv.2) d := by
  induction fd with
  | nil => intro d k v h _; exact h
  | cons kv0 rest ih =>
    intro d k v h hne
    simp only [List.foldl_cons]
    apply ih
    · exact mem_dictSet_of_ne d kv0.1 kv0.2 k v h (hne kv0 (List.mem_cons_self kv0 rest))
    · intro kv hkv
      exact hne kv (List.mem_cons.mpr (Or.inr hkv))

theorem mem_foldl_dictSet_cases {α : Type} (fd : List (String × α)) :
    ∀ (d : List (String × α)) (n : String) (x : α),
      (n, x) ∈ fd.foldl (fun d kv => dictSet d kv.1 kv.2) d →
      (n, x) ∈ d ∨ ∃ kv ∈ fd, kv.2 = x := by
  induction fd with
  | nil => intro d n x h; exact Or.inl h
  | cons kv0 rest ih =>
    intro d n x h
    simp only [List.foldl_cons] at h
    rcases ih (dictSet d kv0.1 kv0.2) n x h with h1 | h2
    · rcases mem_dictSet_cases d kv0.1 kv0.2 n x h1 with h3 | h4
      · exact Or.inl h3
      · refine Or.inr ⟨kv0, List.mem_cons_self kv0 rest, ?_⟩
        have := congrArg Prod.snd h4
        simpa using this.symm
    · obtain ⟨kv, hkv, hx⟩ := h2
      exact Or.inr ⟨kv, List.mem_cons.mpr (Or.inr hkv), hx⟩

theorem mem_dictPop {α : Type} (d : List (String × α)) (k n : String) (x : α)
    (h : (n, x) ∈ dictPop d k) : (n, x) ∈ d ∧ n ≠ k := by
  unfold dictPop at h
  have := List.mem_filter.mp h
  refine ⟨this.1, ?_⟩
  have hb := this.2
  simp at hb
  exact hb

theorem discoverFilter_cons (executable : String) (regex : Option (String → Bool))
    (name : String) (plugin : PluginC) (rest : List (String × PluginC))
    (plugins : List PluginC) :
    discoverFilter executable regex ((name, plugin) :: rest) plugins =
      (if !plugin_is_valid plugin then discoverFilter executable regex rest plugins
       else if !version_is_compatible plugin then
         discoverFilter executable regex rest plugins
       else
         match host_is_compatible executable plugin with
         | Except.error e => Except.error e
         | Except.ok hc =>
           if !hc then discoverFilter executable regex rest plugins
           else if plugins.contains plugin then discoverFilter executable regex rest plugins
           else if !roleAny plugin then discoverFilter executable regex rest plugins
           else if regexMatches regex name then
             discoverFilter executable regex rest (plugins ++ [plugin])
           else discoverFilter executable regex rest plugins) := rfl

theorem contains_true_iff {α : Type} [BEq α] [LawfulBEq α] (l : List α) (a : α) :
    l.contains a = true ↔ a ∈ l := by
  simp [List.contains_eq_any_beq, List.any_eq_true, eq_comm]

theorem dF_skip_invalid (executable : String) (regex : Option (String → Bool))
    (name : String) (plugin : PluginC) (rest : List (String × PluginC))
    (acc : List PluginC) (h1 : plugin_is_valid plugin = false) :
    discoverFilter executable regex ((name, plugin) :: rest) acc =
      discoverFilter executable regex rest acc := by
  rw [discoverFilter_cons, h1]
  simp

theorem dF_skip_version (executable : String) (regex : Option (String → Bool))
    (name : String) (plugin : PluginC) (rest : List (String × PluginC))
    (acc : List PluginC) (h1 : plugin_is_valid plugin = true)
    (h2 : version_is_compatible plugin = false) :
    discoverFilter executable regex ((name, plugin) :: rest) acc =
      discoverFilter executable regex rest acc := by
  rw [discoverFilter_cons, h1, h2]
  simp

theorem dF_error (executable : String) (regex : Option (String → Bool))
    (name : String) (plugin : PluginC) (rest : List (String × PluginC))
    (acc : List PluginC) (e : PyError) (h1 : plugin_is_valid plugin = true)
    (h2 : version_is_compatible plugin = true)
    (h3 : host_is_compatible executable plugin = Except.error e) :
    discoverFilter executable regex ((name, plugin) :: rest) acc = Except.error e := by
  rw [discoverFilter_cons, h1, h2, h3]
  simp

theorem dF_skip_host (executable : String) (regex : Option (String → Bool))
    (name : String) (plugin : PluginC) (rest : List (String × PluginC))
    (acc : List PluginC) (h1 : plugin_is_valid plugin = true)
    (h2 : version_is_compatible plugin = true)
    (h3 : host_is_compatible executable plugin = Except.ok false) :
    discoverFilter executable regex ((name, plugin) :: rest) acc =
      discoverFilter executable regex rest acc := by
  rw [discoverFilter_cons, h1, h2, h3]
  simp

theorem dF_skip_dup (executable : String) (regex : Option (String → Bool))
    (name : String) (plugin : PluginC) (rest : List (String × PluginC))
    (acc : List PluginC) (h1 : plugin_is_valid plugin = true)
    (h2 : version_is_compatible plugin = true)
    (h3 : host_is_compatible executable plugin = Except.ok true)
    (h4 : plugin ∈ acc) :
    discoverFilter executable regex ((name, plugin) :: rest) acc =
      discoverFilter executable regex rest acc := by
  rw [discoverFilter_cons, h1, h2, h3]
  simp [h4]

theorem dF_skip_role (executable : String) (regex : Option (String → Bool))
    (name : String) (plugin : PluginC) (rest : List (String × PluginC))
    (acc : List PluginC) (h1 : plugin_is_valid plugin = true)
    (h2 : version_is_compatible plugin = true)
    (h3 : host_is_compatible executable plugin = Except.ok true)
    (h4 : plugin ∉ acc) (h5 : roleAny plugin = false) :
    discoverFilter executable regex ((name, plugin) :: rest) acc =
      discoverFilter executable regex rest acc := by
  rw [discoverFilter_cons, h1, h2, h3, h5]
  simp [h4]

theorem dF_append (executable : String) (regex : Option (String → Bool))
    (name : String) (plugin : PluginC) (rest : List (String × PluginC))
    (acc : List PluginC) (h1 : plugin_is_valid plugin = true)
    (h2 : version_is_compatible plugin = true)
    (h3 : host_is_compatible executable plugin = Except.ok true)
    (h4 : plugin ∉ acc) (h5 : roleAny plugin = true)
    (h6 : regexMatches regex name = true) :
    discoverFilter executable regex ((name, plugin) :: rest) acc =
      discoverFilter executable regex rest (acc ++ [plugin]) := by
  rw [discoverFilter_cons, h1, h2, h3, h5, h6]
  simp [h4]

theorem dF_skip_regex (executable : String) (regex : Option (String → Bool))
    (name : String) (plugin : PluginC) (rest : List (String × PluginC))
    (acc : List PluginC) (h1 : plugin_is_valid plugin = true)
    (h2 : version_is_compatible plugin = true)
    (h3 : host_is_compatible executable plugin = Except.ok true)
    (h4 : plugin ∉ acc) (h5 : roleAny plugin = true)
    (h6 : regexMatches regex name = false) :
    discoverFilter executable regex ((name, plugin) :: rest) acc =
      discoverFilter executable regex rest acc := by
  rw [discoverFilter_cons, h1, h2, h3, h5, h6]
  simp [h4]

theorem discoverFilter_complete (executable : String) (hst : String)
    (hh : current_host executable = Except.ok hst) :
    ∀ (cands : List (String × PluginC)) (acc : List PluginC),
      ∃ l, discoverFilter executable none cands acc = Except.ok l ∧
        (∀ x ∈ acc, x ∈ l) ∧
        (∀ name P, (name, P) ∈ cands → plugin_is_valid P = true →
          version_is_compatible P = true →
          (P.hosts.contains "*" || P.hosts.contains hst) = true →
          roleAny P = true → P ∈ l) := by
  intro cands
  induction cands with
  | nil =>
    intro acc
    exact ⟨acc, rfl, fun x hx => hx, by simp⟩
  | cons nv rest ih =>
    intro acc
    obtain ⟨name, plugin⟩ := nv
    have hhc : host_is_compatible executable plugin =
        Except.ok (plugin.hosts.contains "*" || plugin.hosts.contains hst) := by
      simp [host_is_compatible, hh]
    by_cases hvalid : plugin_is_valid plugin = true
    · by_cases hver : version_is_compatible plugin = true
      · by_cases hcomp : (plugin.hosts.contains "*" || plugin.hosts.contains hst) = true
        · rw [hcomp] at hhc
          by_cases hdup : plugin ∈ acc
          · obtain ⟨l, hl, hacc, hrest⟩ := ih acc
            refine ⟨l, ?_, hacc, ?_⟩
            · rw [dF_skip_dup executable none name plugin rest acc hvalid hver hhc hdup]
              exact hl
            · intro n P hmem hv hve hco hro
              rcases List.mem_cons.mp hmem with heq | hm
              · have hP : P = plugin := congrArg Prod.snd heq
                subst hP
                exact hacc P hdup
              · exact hrest n P hm hv hve hco hro
          · by_cases hrole : roleAny plugin = true
            · obtain ⟨l, hl, hacc, hrest⟩ := ih (acc ++ [plugin])
              refine ⟨l, ?_, ?_, ?_⟩
              · rw [dF_append executable none name plugin rest acc hvalid hver hhc hdup
                  hrole rfl]
                exact hl
              · intro x hx
                exact hacc x (List.mem_append.mpr (Or.inl hx))
              · intro n P hmem hv hve hco hro
                rcases List.mem_cons.mp hmem with heq | hm
                · have hP : P = plugin := congrArg Prod.snd heq
                  subst hP
                  exact hacc P (List.mem_append.mpr (Or.inr (List.mem_singleton.mpr rfl)))
                · exact hrest n P hm hv hve hco hro
            · obtain ⟨l, hl, hacc, hrest⟩ := ih acc
              have hrole2 : roleAny plugin = false := Bool.eq_false_iff.mpr hrole
              refine ⟨l, ?_, hacc, ?_⟩
              · rw [dF_skip_role executable none name plugin rest acc hvalid hver hhc hdup
                  hrole2]
                exact hl
              · intro n P hmem hv hve hco hro
                rcases List.mem_cons.mp hmem with heq | hm
                · have hP : P = plugin := congrArg Prod.snd heq
                  subst hP
                  exact absurd hro hrole
                · exact hrest n P hm hv hve hco hro
        · obtain ⟨l, hl, hacc, hrest⟩ := ih acc
          have hcomp2 : (plugin.hosts.contains "*" || plugin.hosts.contains hst) = false :=
            Bool.eq_false_iff.mpr hcomp
          rw [hcomp2] at hhc
          refine ⟨l, ?_, hacc, ?_⟩
          · rw [dF_skip_host executable none name plugin rest acc hvalid hver hhc]
            exact hl
          · intro n P hmem hv hve hco hro
            rcases List.mem_cons.mp hmem with heq | hm
            · have hP : P = plugin := congrArg Prod.snd heq
              subst hP
              exact absurd hco hcomp
            · exact hrest n P hm hv hve hco hro
      · obtain ⟨l, hl, hacc, hrest⟩ := ih acc
        have hver2 : version_is_compatible plugin = false := Bool.eq_false_iff.mpr hver
        refine ⟨l, ?_, hacc, ?_⟩
        · rw [dF_skip_version executable none name plugin rest acc hvalid hver2]
          exact hl
        · intro n P hmem hv hve hco hro
          rcases List.mem_cons.mp hmem with heq | hm
          · have hP : P = plugin := congrArg Prod.snd heq
            subst hP
            exact absurd hve hver
          · exact hrest n P hm hv hve hco hro
    · obtain ⟨l, hl, hacc, hrest⟩ := ih acc
      have hvalid2 : plugin_is_valid plugin = false := Bool.eq_false_iff.mpr hvalid
      refine ⟨l, ?_, hacc, ?_⟩
      · rw [dF_skip_invalid executable none name plugin rest acc hvalid2]
        exact hl
      · intro n P hmem hv hve hco hro
        rcases List.mem_cons.mp hmem with heq | hm
        · have hP : P = plugin := congrArg Prod.snd heq
          subst hP
          exact absurd hv hvalid
        · exact hrest n P hm hv hve hco hro

theorem discoverFilter_sound (executable : String) (regex : Option (String → Bool)) :
    ∀ (cands : List (String × PluginC)) (acc l : List PluginC),
      discoverFilter executable regex cands acc = Except.ok l →
      ∀ x ∈ l, x ∈ acc ∨ ∃ n, (n, x) ∈ cands := by
  intro cands
  induction cands with
  | nil =>
    intro acc l hok x hx
    have : acc = l := by
      simpa [discoverFilter] using hok
    exact Or.inl (this ▸ hx)
  | cons nv rest ih =>
    intro acc l hok x hx
    obtain ⟨name, plugin⟩ := nv
    have lift : (x ∈ acc ∨ ∃ n, (n, x) ∈ rest) →
        x ∈ acc ∨ ∃ n, (n, x) ∈ (name, plugin) :: rest := by
      rintro (h | ⟨n, hn⟩)
      · exact Or.inl h
      · exact Or.inr ⟨n, List.mem_cons.mpr (Or.inr hn)⟩
    by_cases hvalid : plugin_is_valid plugin = true
    · by_cases hver : version_is_compatible plugin = true
      · cases hhc : host_is_compatible executable plugin with
        | error e =>
          rw [dF_error executable regex name plugin rest acc e hvalid hver hhc] at hok
          simp at hok
        | ok hc =>
          cases hc with
          | false =>
            rw [dF_skip_host executable regex name plugin rest acc hvalid hver hhc] at hok
            exact lift (ih acc l hok x hx)
          | true =>
            by_cases hdup : plugin ∈ acc
            · rw [dF_skip_dup executable regex name plugin rest acc hvalid hver hhc
                hdup] at hok
              exact lift (ih acc l hok x hx)
            · by_cases hrole : roleAny plugin = true
              · by_cases hre : regexMatches regex name = true
                · rw [dF_append executable regex name plugin rest acc hvalid hver hhc hdup
                    hrole hre] at hok
                  rcases ih (acc ++ [plugin]) l hok x hx with h1 | h2
                  · rcases List.mem_append.mp h1 with ha | hb
                    · exact Or.inl ha
                    · have hxp : x = plugin := List.mem_singleton.mp hb
                      subst hxp
                      exact Or.inr ⟨name, List.mem_cons.mpr (Or.inl rfl)⟩
                  · exact lift (Or.inr h2)
                · have hre2 : regexMatches regex name = false := Bool.eq_false_iff.mpr hre
                  rw [dF_skip_regex executable regex name plugin rest acc hvalid hver hhc
                    hdup hrole hre2] at hok
                  exact lift (ih acc l hok x hx)
              · have hrole2 : roleAny plugin = false := Bool.eq_false_iff.mpr hrole
                rw [dF_skip_role executable regex name plugin rest acc hvalid hver hhc
                  hdup hrole2] at hok
                exact lift (ih acc l hok x hx)
      · have hver2 : version_is_compatible plugin = false := Bool.eq_false_iff.mpr hver
        rw [dF_skip_version executable regex name plugin rest acc hvalid hver2] at hok
        exact lift (ih acc l hok x hx)
    · have hvalid2 : plugin_is_valid plugin = false := Bool.eq_false_iff.mpr hvalid
      rw [dF_skip_invalid executable regex name plugin rest acc hvalid2] at hok
      exact lift (ih acc l hok x hx)

theorem host_is_compatible_eval (executable : String) (p : PluginC) (hst : String)
    (hh : current_host executable = Except.ok hst) :
    host_is_compatible executable p =
      Except.ok (p.hosts.contains "*" || p.hosts.contains hst) := by
  simp [host_is_compatible, hh]

theorem host_is_compatible_eval_err (executable : String) (p : PluginC) (e : PyError)
    (hh : current_host executable = Except.error e) :
    host_is_compatible executable p = Except.error e := by
  simp [host_is_compatible, hh]

/-- C6 (counterexample): a direct `Plugin` subclass of none of the four
stage roles passes the validity, version- and host-compatibility checks,
yet registering it and calling `discover()` with no arguments returns a
list without it — the stage-type filter drops it. -/
theorem discover_drops_plain_plugin :
    plugin_is_valid plainPlugin = true ∧
    version_is_compatible plainPlugin = true ∧
    host_is_compatible "python" plainPlugin = Except.ok true ∧
    discover "python" (register_plugin [] plainPlugin) [] none = Except.ok [] := by
  decide

/-- C6 (amended): for a plug-in class P that passes the validity,
host-compatibility and version-compatibility checks AND is of one of the
four stage roles, registering P and discovering (no stage filter, no
name filter, `fileDiscovered` standing for the path scan, none of whose
entries reuses P's class name) returns a list containing P; after
deregistering P (P not also reachable as another registry value or from
the path scan) discovery no longer returns it. -/
theorem register_discover_roundtrip (executable : String)
    (reg fileDiscovered : List (String × PluginC)) (P : PluginC)
    (hvalid : plugin_is_valid P = true)
    (hver : version_is_compatible P = true)
    (hcompat : host_is_compatible executable P = Except.ok true)
    (hrole : roleAny P = true)
    (hfile : ∀ kv ∈ fileDiscovered, kv.1 ≠ P.name)
    (hregvals : ∀ kv ∈ reg, kv.2 ≠ P)
    (hfilevals : ∀ kv ∈ fileDiscovered, kv.2 ≠ P) :
    (∃ l, discover executable (register_plugin reg P) fileDiscovered none = Except.ok l ∧
      P ∈ l) ∧
    (∀ l, discover executable (deregister_plugin (register_plugin reg P) P) fileDiscovered
      none = Except.ok l → P ∉ l) := by
  obtain ⟨hst, hcur, hmem⟩ :
      ∃ hst, current_host executable = Except.ok hst ∧
        (P.hosts.contains "*" || P.hosts.contains hst) = true := by
    cases hc : current_host executable with
    | error e =>
      rw [host_is_compatible_eval_err executable P e hc] at hcompat
      exact absurd hcompat (by simp)
    | ok hst =>
      rw [host_is_compatible_eval executable P hst hc] at hcompat
      exact ⟨hst, rfl, Except.ok.inj hcompat⟩
  constructor
  · have hPmem : (P.name, P) ∈ fileDiscovered.foldl (fun d kv => dictSet d kv.1 kv.2)
        (register_plugin reg P) := by
      apply mem_foldl_dictSet
      · exact mem_dictSet_self reg P.name P
      · exact hfile
    obtain ⟨l, hok, hsub, hcompl⟩ := discoverFilter_complete executable hst hcur
      (fileDiscovered.foldl (fun d kv => dictSet d kv.1 kv.2) (register_plugin reg P)) []
    have hPl : P ∈ l := hcompl P.name P hPmem hvalid hver hmem hrole
    refine ⟨sort l, ?_, ?_⟩
    · simp [discover, hok]
    · exact (List.perm_insertionSort pluginLe l).mem_iff.mpr hPl
  · intro l hok2 hPin
    obtain ⟨l0, hok0, hsub0, hcompl0⟩ := discoverFilter_complete executable hst hcur
      (fileDiscovered.foldl (fun d kv => dictSet d kv.1 kv.2)
        (deregister_plugin (register_plugin reg P) P)) []
    have hdisc : discover executable (deregister_plugin (register_plugin reg P) P)
        fileDiscovered none = Except.ok (sort l0) := by
      simp [discover, hok0]
    rw [hdisc] at hok2
    have hl : l = sort l0 := (Except.ok.inj hok2).symm
    subst hl
    have hPl0 : P ∈ l0 := (List.perm_insertionSort pluginLe l0).mem_iff.mp hPin
    rcases discoverFilter_sound executable none _ [] l0 hok0 P hPl0 with hempty | ⟨n, hn⟩
    · simp at hempty
    · rcases mem_foldl_dictSet_cases fileDiscovered _ n P hn with hbase | ⟨kv, hkv, hval⟩
      · obtain ⟨hset, hne⟩ := mem_dictPop (dictSet reg P.name P) P.name n P hbase
        rcases mem_dictSet_cases reg P.name P n P hset with hreg | heq
        · exact hregvals (n, P) hreg rfl
        · exact hne (congrArg Prod.fst heq)
      · exact hfilevals kv hkv hval

/-- C6 (witness for the amended theorem): a wildcard-host Selector,
registered into an empty registry in a standalone-python process with no
path-discovered files. -/
theorem register_discover_roundtrip_witness :
    (∃ l, discover "python" (register_plugin [] collectPlugin) [] none = Except.ok l ∧
      collectPlugin ∈ l) ∧
    (∀ l, discover "python"
      (deregister_plugin (register_plugin [] collectPlugin) collectPlugin) [] none =
        Except.ok l → collectPlugin ∉ l) :=
  register_discover_roundtrip "python" [] [] collectPlugin (by decide) (by decide)
    (by decide) (by decide) (by decide) (by decide) (by decide)

end Pyblish
